import Mathlib

/-!
Shallow embedding of `src/gradcmp_optim/optimizer.py` (class `Optimizer`,
a torch optimizer implementing a continuous version of momentum with an
adaptive step size), together with theorems settling the specification
claims about it.

Modelling conventions:
* tensors are `List ℝ` (exact real arithmetic in place of floats);
  `grad.norm().pow(2)` is modelled as the exact sum of squares `dot g g`;
* `p.grad` may be `None` in the source, hence `Option (List ℝ)`;
* `self.state[p]` is a per-parameter dictionary; an absent entry (or an
  absent `new_velocity` key) read by the source raises `KeyError`, modelled
  by `StepError.missingState`;
* the division `(a2 + b2 - 2 * ab) / math.sqrt(a2 * b2)` raises Python's
  `ZeroDivisionError` when `a2 * b2 == 0` (this is the degenerate-gradient
  failure of the spec), modelled by `StepError.degenerateGradient`;
  likewise `t / (t + dt)` with `t + dt == 0` is `StepError.zeroDivision`;
* a raised exception aborts the whole `step` call: the model returns
  `Except.error` and no resulting state (partial in-place mutations that
  a Python exception would leave behind are not observable in the model);
* `self.param_groups` is a `List Group`; `reset` iterates over all groups
  (it takes no group argument in the source).
-/

namespace GradcmpOptim

noncomputable section

/-- Elementwise scaling `c * v` of a tensor (`v.mul_(c)` / `c * v`). -/
def vscale (c : ℝ) (v : List ℝ) : List ℝ :=
  v.map fun y => c * y

/-- Elementwise addition of two tensors. -/
def vadd (a b : List ℝ) : List ℝ :=
  List.zipWith (fun u v => u + v) a b

/-- Elementwise negation, `-g` in the source. -/
def vneg (v : List ℝ) : List ℝ :=
  v.map fun y => -y

/-- `torch.zeros_like(v)`. -/
def zerosLike (v : List ℝ) : List ℝ :=
  v.map fun _ => (0 : ℝ)

/-- `(a * b).sum()`, and also the exact value of `a.norm().pow(2)` when
`b = a`. -/
def dot (a b : List ℝ) : ℝ :=
  (List.zipWith (fun u v => u * v) a b).sum

/-- Runtime failures of `Optimizer.step`, i.e. the Python exceptions the
source can raise while executing one call. -/
inductive StepError where
  /-- `ZeroDivisionError` raised by
  `(a2 + b2 - 2 * ab) / math.sqrt(a2 * b2)` when `a2 * b2 == 0`; this is
  the degenerate-gradient failure of the spec. -/
  | degenerateGradient
  /-- `KeyError` raised when reading a key of `self.state[p]` that was never
  written (for example `new_velocity` before any propose step ran for `p`). -/
  | missingState
  /-- `ZeroDivisionError` raised by `t / (t + dt)` when `t + dt == 0`. -/
  | zeroDivision

/-- The entry `self.state[p]` of one parameter: committed gradient,
committed position, committed velocity (`grad`, `param`, `velocity` keys)
and the proposed velocity (`new_velocity` key, absent until the first
propose step touches the parameter). -/
structure ParamState where
  grad : List ℝ
  param : List ℝ
  velocity : List ℝ
  new_velocity : Option (List ℝ)

/-- One parameter `p` of a group together with its state entry: `p.data`,
`p.grad` (possibly `None`) and `self.state[p]` (possibly never created). -/
structure ParamEntry where
  data : List ℝ
  grad : Option (List ℝ)
  st : Option ParamState

/-- One entry of `self.param_groups`: the hyperparameters stored by
`__init__` via `defaults`, the control keys written by `reset`/`step`
(`group['step']` is `step?`, absent before initialization), and the
group's parameters. -/
structure Group where
  tau : ℝ
  dt : ℝ
  low_bound : ℝ
  high_bound : ℝ
  step? : Option Nat
  t : ℝ
  accepted : Bool
  params : List ParamEntry

/-- `Optimizer.__init__(params, tau, dt, low_bound, high_bound)`: the source
builds `defaults = dict(dt=dt, tau=tau, low_bound=low_bound,
high_bound=high_bound)` and hands them to the torch base class, which copies
them verbatim into every param group.  No key `step` exists yet (`t` and
`accepted` are likewise unwritten; the model stores inert placeholders `0`
and `true` for them, which the source never reads before `reset` sets them).
No validation of any hyperparameter is performed anywhere on this path. -/
def initOptimizer (paramGroups : List (List ParamEntry))
    (tau dt low_bound high_bound : ℝ) : List Group :=
  paramGroups.map fun ps =>
    { tau := tau, dt := dt, low_bound := low_bound, high_bound := high_bound,
      step? := none, t := 0, accepted := true, params := ps }

/-- Body of the `for p in group['params']` loop of `Optimizer.reset` for one
parameter: parameters with `p.grad is None` are skipped; otherwise
`self.state[p]` gets `grad = p.grad.clone()`, `param = p.clone()`,
`velocity = torch.zeros_like(p.data)`.  A pre-existing `new_velocity` key of
the same dictionary is left in place. -/
def resetEntry (e : ParamEntry) : ParamEntry :=
  match e.grad with
  | none => e
  | some gr =>
      let st2 : ParamState :=
        { grad := gr, param := e.data, velocity := zerosLike e.data,
          new_velocity := Option.bind e.st fun s => s.new_velocity }
      { e with st := some st2 }

/-- The body of `Optimizer.reset` for one group:
`group['step'] = 0; group['t'] = 0; group['accepted'] = True` and the
per-parameter loop. -/
def resetGroup (g : Group) : Group :=
  { g with step? := some 0, t := 0, accepted := true,
           params := g.params.map resetEntry }

/-- `Optimizer.reset`: iterates over every group of `self.param_groups`
(the method takes no group argument). -/
def resetAll (gs : List Group) : List Group :=
  gs.map resetGroup

/-- The `a2, b2, ab` accumulation loop of `Optimizer.step`: parameters with
`p.grad is None` are skipped; for the rest, `self.state[p]['grad']` raises
`KeyError` when the state entry was never created. -/
def gradSums : List ParamEntry → Except StepError (ℝ × ℝ × ℝ)
  | [] => .ok (0, 0, 0)
  | e :: es =>
      match e.grad with
      | none => gradSums es
      | some gr =>
          match e.st with
          | none => .error .missingState
          | some st =>
              match gradSums es with
              | .error err => .error err
              | .ok (a2, b2, ab) =>
                  .ok (dot st.grad st.grad + a2, dot gr gr + b2,
                       dot st.grad gr + ab)

/-- The "save current state" loop of the accept branch for one parameter:
`param_state['grad'] = p.grad.clone(); param_state['param'] = p.clone();
param_state['velocity'] = param_state['new_velocity']`.  Reading
`new_velocity` raises `KeyError` when the key (or the whole entry) is
absent. -/
def commitEntry (e : ParamEntry) : Except StepError ParamEntry :=
  match e.grad with
  | none => .ok e
  | some gr =>
      match e.st with
      | none => .error .missingState
      | some st =>
          match st.new_velocity with
          | none => .error .missingState
          | some nv =>
              let st2 : ParamState :=
                { grad := gr, param := e.data, velocity := nv,
                  new_velocity := st.new_velocity }
              .ok { e with st := some st2 }

/-- The "save current state" loop of the accept branch over the whole
parameter list. -/
def commitList : List ParamEntry → Except StepError (List ParamEntry)
  | [] => .ok []
  | e :: es =>
      match commitEntry e with
      | .error err => .error err
      | .ok e2 =>
          match commitList es with
          | .error err => .error err
          | .ok es2 => .ok (e2 :: es2)

/-- The acceptance test of `Optimizer.step` for an initialized group whose
current step counter is `n`:
`relnorm = (a2 + b2 - 2 * ab) / math.sqrt(a2 * b2)` (raising
`ZeroDivisionError` when `a2 * b2 == 0`), then either the accept branch
(`t += dt`, `step += 1`, `accepted = True`, commit loop, and `dt *= 1.1`
when additionally `relnorm < low_bound`) or the reject branch
(`dt /= 10`, `accepted = False`). -/
def acceptGroup (n : Nat) (g : Group) : Except StepError Group :=
  match gradSums g.params with
  | .error err => .error err
  | .ok (a2, b2, ab) =>
      if a2 * b2 = 0 then .error .degenerateGradient
      else
        let relnorm := (a2 + b2 - 2 * ab) / Real.sqrt (a2 * b2)
        if relnorm < g.high_bound then
          match commitList g.params with
          | .error err => .error err
          | .ok ps =>
              .ok { g with
                    t := g.t + g.dt,
                    step? := some (n + 1),
                    accepted := true,
                    params := ps,
                    dt := if relnorm < g.low_bound then g.dt * 1.1 else g.dt }
        else
          .ok { g with dt := g.dt / 10, accepted := false }

/-- The "propose new state" loop of `Optimizer.step` for one parameter:
skip when `p.grad is None`; otherwise read `self.state[p]` (a `KeyError`
when absent), take `g = param_state['grad']`,
`v = param_state['velocity'].clone()`, compute the decayed velocity
according to the sign of `tau`, store it as `new_velocity` and perform
`p.data.copy_(param_state['param'] + dt * v)`. -/
def proposeEntry (tau dt t : ℝ) (e : ParamEntry) : Except StepError ParamEntry :=
  match e.grad with
  | none => .ok e
  | some _ =>
      match e.st with
      | none => .error .missingState
      | some st =>
          let g := st.grad
          let v0 := st.velocity
          if 0 < tau then
            let x := Real.exp (-dt / tau)
            let v := vadd (vscale x v0) (vscale (-(1 - x)) g)
            .ok { e with
                  data := vadd st.param (vscale dt v),
                  st := some { st with new_velocity := some v } }
          else if tau < 0 then
            if t + dt = 0 then .error .zeroDivision
            else
              let mu := -tau
              let x := Real.rpow (t / (t + dt)) mu
              let v := vadd (vscale x v0) (vscale (-(1 - x)) g)
              .ok { e with
                    data := vadd st.param (vscale dt v),
                    st := some { st with new_velocity := some v } }
          else
            let v := vneg g
            .ok { e with
                  data := vadd st.param (vscale dt v),
                  st := some { st with new_velocity := some v } }

/-- The propose loop over the whole parameter list. -/
def proposeList (tau dt t : ℝ) :
    List ParamEntry → Except StepError (List ParamEntry)
  | [] => .ok []
  | e :: es =>
      match proposeEntry tau dt t e with
      | .error err => .error err
      | .ok e2 =>
          match proposeList tau dt t es with
          | .error err => .error err
          | .ok es2 => .ok (e2 :: es2)

/-- The propose phase of `Optimizer.step` for one group, using `dt` and `t`
as just updated by the acceptance test (or as just initialized). -/
def proposeGroup (g : Group) : Except StepError Group :=
  match proposeList g.tau g.dt g.t g.params with
  | .error err => .error err
  | .ok ps => .ok { g with params := ps }

/-- The per-group body of `Optimizer.step` for a group that already has a
`step` key with value `n`: acceptance test, then propose. -/
def stepInitialized (n : Nat) (g : Group) : Except StepError Group :=
  match acceptGroup n g with
  | .error err => .error err
  | .ok g2 => proposeGroup g2

/-- The per-group body of `Optimizer.step` specialized to an optimizer whose
`param_groups` list contains exactly this group, so that the `self.reset()`
of the lazy-initialization branch reduces to resetting this group. -/
def stepSingle (g : Group) : Except StepError Group :=
  match g.step? with
  | none => proposeGroup (resetGroup g)
  | some n => stepInitialized n g

/-- The `for group in self.param_groups` loop of `Optimizer.step`.
`done` is the (already processed) prefix of `self.param_groups` and `todo`
the remaining suffix.  When a group without a `step` key is encountered,
`self.reset()` runs over the *entire* live list — the processed prefix, the
current group and the unprocessed suffix alike — after which the current
group proceeds directly to the propose phase. -/
def stepGo : List Group → List Group → Except StepError (List Group)
  | done, [] => .ok done
  | done, g :: todo =>
      match g.step? with
      | none =>
          match proposeGroup (resetGroup g) with
          | .error err => .error err
          | .ok g2 => stepGo (resetAll done ++ [g2]) (resetAll todo)
      | some n =>
          match stepInitialized n g with
          | .error err => .error err
          | .ok g2 => stepGo (done ++ [g2]) todo
termination_by _ todo => todo.length
decreasing_by
  · simp [resetAll]
  · simp

/-- `Optimizer.step` without the closure plumbing: one call over all param
groups. -/
def stepAll (gs : List Group) : Except StepError (List Group) :=
  stepGo [] gs

/-- `Optimizer.step(closure)`: `loss = None; if closure is not None:
loss = closure()` before the group loop, and `return loss` at the end.
The closure is modelled by the loss value it computes (`none` when no
closure is supplied); the returned pair is (returned value, updated
groups). -/
def stepClosure (loss : Option ℝ) (gs : List Group) :
    Except StepError (Option ℝ × List Group) :=
  match stepAll gs with
  | .error err => .error err
  | .ok gs2 => .ok (loss, gs2)

/-- The caller-facing operations of the optimizer: `reset()` and `step()`. -/
inductive Op where
  | reset
  | advance

/-- Run one caller-facing operation. -/
def runOp : Op → List Group → Except StepError (List Group)
  | .reset, gs => .ok (resetAll gs)
  | .advance, gs => stepAll gs

/-- Run a finite sequence of caller-facing operations, aborting at the first
raised exception. -/
def runOps : List Op → List Group → Except StepError (List Group)
  | [], gs => .ok gs
  | op :: ops, gs =>
      match runOp op gs with
      | .error err => .error err
      | .ok gs2 => runOps ops gs2

/-- The committed part of a parameter's state: the `grad`, `param` and
`velocity` keys of `self.state[p]` (everything the spec calls "committed"),
ignoring the proposal buffer `new_velocity` and the live tensor `p.data`. -/
def committedOf (e : ParamEntry) : Option (List ℝ × List ℝ × List ℝ) :=
  e.st.map fun s => (s.grad, s.param, s.velocity)

/-! ### Concrete fixtures used by witnesses and counterexamples -/

/-- The end-to-end scenario group: one scalar parameter at position `p0`,
`tau = 1`, `dt = 1`, `low_bound = 0.01`, `high_bound = 0.1`, never
initialized, with current gradient `2.0`. -/
def c1Group (p0 : ℝ) : Group :=
  { tau := 1, dt := 1, low_bound := 1/100, high_bound := 1/10,
    step? := none, t := 0, accepted := true,
    params := [{ data := [p0], grad := some [2], st := none }] }

/-- The state of the end-to-end scenario group after its first `step` call. -/
def c1After1 (p0 : ℝ) : Group :=
  { tau := 1, dt := 1, low_bound := 1/100, high_bound := 1/10,
    step? := some 0, t := 0, accepted := true,
    params := [{ data := [p0 + (2 * Real.exp (-1) - 2)], grad := some [2],
                 st := some { grad := [2], param := [p0], velocity := [0],
                              new_velocity := some [2 * Real.exp (-1) - 2] } }] }

/-- An initialized group whose committed and current gradients are both the
zero vector. -/
def gW2 : Group :=
  { tau := 0, dt := 1, low_bound := 1/100, high_bound := 1/10,
    step? := some 0, t := 0, accepted := true,
    params := [{ data := [1], grad := some [0],
                 st := some { grad := [0], param := [1], velocity := [0],
                              new_velocity := none } }] }

/-- An initialized group whose current gradient equals its committed
gradient, so its next acceptance test accepts with `relnorm = 0`. -/
def gW3 : Group :=
  { tau := 0, dt := 1, low_bound := 1/100, high_bound := 1/10,
    step? := some 0, t := 0, accepted := true,
    params := [{ data := [0], grad := some [2],
                 st := some { grad := [2], param := [0], velocity := [0],
                              new_velocity := some [-2] } }] }

/-- The state of `gW3` after one accepted `step` call. -/
def gW3res : Group :=
  { tau := 0, dt := 1.1, low_bound := 1/100, high_bound := 1/10,
    step? := some 1, t := 1, accepted := true,
    params := [{ data := [-2.2], grad := some [2],
                 st := some { grad := [2], param := [0], velocity := [-2],
                              new_velocity := some [-2] } }] }

/-- An initialized group whose current gradient `[3]` differs enough from
its committed gradient `[1]` that the acceptance test rejects
(`relnorm = 4/3 ≥ 0.1`). -/
def gW4 : Group :=
  { tau := 0, dt := 1, low_bound := 1/100, high_bound := 1/10,
    step? := some 5, t := 2, accepted := true,
    params := [{ data := [10], grad := some [3],
                 st := some { grad := [1], param := [7], velocity := [4],
                              new_velocity := some [9] } }] }

/-- The state of `gW4` after one rejected `step` call: `dt` shrank to
`1/10`, the committed state is untouched, and the propose phase wrote a new
proposal from the old committed state. -/
def gW4res : Group :=
  { tau := 0, dt := 1/10, low_bound := 1/100, high_bound := 1/10,
    step? := some 5, t := 2, accepted := false,
    params := [{ data := [7 + 1/10 * -1], grad := some [3],
                 st := some { grad := [1], param := [7], velocity := [4],
                              new_velocity := some [-1] } }] }

/-- The group produced by constructing the optimizer with the invalid
step size `dt = -1` (construction does not reject it). -/
def gBad5 : Group :=
  { tau := 1, dt := -1, low_bound := 1/100, high_bound := 1/10,
    step? := none, t := 0, accepted := true,
    params := [{ data := [0], grad := some [1], st := none }] }

/-- A fresh group used to observe the value returned by `step(closure)`. -/
def gW6 : Group :=
  { tau := 0, dt := 1, low_bound := 1/100, high_bound := 1/10,
    step? := none, t := 0, accepted := true,
    params := [{ data := [0], grad := some [1], st := none }] }

/-- A fresh (never-initialized) group; first of two in `c7_counterexample`. -/
def g7A : Group :=
  { tau := 0, dt := 1, low_bound := 1/100, high_bound := 1/10,
    step? := none, t := 0, accepted := true,
    params := [{ data := [0], grad := some [1], st := none }] }

/-- A fresh (never-initialized) group; second of two in
`c7_counterexample`. -/
def g7B : Group :=
  { tau := 0, dt := 1, low_bound := 1/100, high_bound := 1/10,
    step? := none, t := 0, accepted := true,
    params := [{ data := [3], grad := some [1], st := none }] }

/-- A fresh single group for the first-call witness. -/
def gW7 : Group :=
  { tau := 0, dt := 1, low_bound := 1/100, high_bound := 1/10,
    step? := none, t := 0, accepted := true,
    params := [{ data := [2], grad := some [1], st := none }] }

/-- The single group after one `step` call on the optimizer constructed for
the `dt`-positivity witness. -/
def g8res : Group :=
  { tau := 0, dt := 1, low_bound := 1/100, high_bound := 1/10,
    step? := some 0, t := 0, accepted := true,
    params := [{ data := [0 + 1 * -1], grad := some [1],
                 st := some { grad := [1], param := [0], velocity := [0],
                              new_velocity := some [-1] } }] }

/-- An already-initialized group clobbered by the global reset in the
`reset` witness. -/
def gW9 : Group :=
  { tau := 0, dt := 2, low_bound := 1/100, high_bound := 1/10,
    step? := some 4, t := 6, accepted := false,
    params := [{ data := [1], grad := some [5],
                 st := some { grad := [8], param := [9], velocity := [3],
                              new_velocity := some [6] } }] }

/-- The parameter entry of `gW9`, reused to instantiate the per-entry part
of the `reset` description. -/
def eW9 : ParamEntry :=
  { data := [1], grad := some [5],
    st := some { grad := [8], param := [9], velocity := [3],
                 new_velocity := some [6] } }

/-- A committed state used by the power-law witness. -/
def stW10 : ParamState :=
  { grad := [3], param := [5], velocity := [0], new_velocity := none }

/-- A parameter entry with a gradient and an existing state, used by the
power-law witness. -/
def eW10 : ParamEntry :=
  { data := [5], grad := some [3], st := some stW10 }

/-! ### Structural lemmas -/

theorem proposeEntry_ok_proj (tau dt t : ℝ) (e e2 : ParamEntry)
    (h : proposeEntry tau dt t e = .ok e2) :
    e2.grad = e.grad ∧ committedOf e2 = committedOf e := by
  unfold proposeEntry at h
  split at h
  · simp only [Except.ok.injEq] at h
    subst h
    exact ⟨rfl, rfl⟩
  · split at h
    · exact absurd h (by simp)
    · rename_i gr hgr st hst
      split at h
      · simp only [Except.ok.injEq] at h
        subst h
        simp [committedOf, hst]
      · split at h
        · split at h
          · exact absurd h (by simp)
          · simp only [Except.ok.injEq] at h
            subst h
            simp [committedOf, hst]
        · simp only [Except.ok.injEq] at h
          subst h
          simp [committedOf, hst]

theorem proposeList_ok_proj (tau dt t : ℝ) :
    ∀ ps ps2 : List ParamEntry, proposeList tau dt t ps = .ok ps2 →
      ps2.map committedOf = ps.map committedOf := by
  intro ps
  induction ps with
  | nil =>
    intro ps2 h
    unfold proposeList at h
    simp only [Except.ok.injEq] at h
    subst h
    rfl
  | cons e es ih =>
    intro ps2 h
    unfold proposeList at h
    split at h
    · exact absurd h (by simp)
    · rename_i e2 he2
      split at h
      · exact absurd h (by simp)
      · rename_i es2 hes2
        simp only [Except.ok.injEq] at h
        subst h
        simp [List.map_cons, (proposeEntry_ok_proj tau dt t e e2 he2).2, ih es2 hes2]

theorem proposeGroup_ok_proj (g g2 : Group) (h : proposeGroup g = .ok g2) :
    g2.tau = g.tau ∧ g2.dt = g.dt ∧ g2.low_bound = g.low_bound ∧
    g2.high_bound = g.high_bound ∧ g2.step? = g.step? ∧ g2.t = g.t ∧
    g2.accepted = g.accepted ∧
    g2.params.map committedOf = g.params.map committedOf := by
  unfold proposeGroup at h
  split at h
  · exact absurd h (by simp)
  · rename_i ps hps
    simp only [Except.ok.injEq] at h
    subst h
    refine ⟨rfl, rfl, rfl, rfl, rfl, rfl, rfl, ?_⟩
    exact proposeList_ok_proj g.tau g.dt g.t g.params ps hps

/-- Scaling one tensor by `0` and the other by `-1` and adding them yields
the elementwise negation of the second, whenever the shapes agree. -/
theorem vadd_vscale_zero_neg_one (a : List ℝ) :
    ∀ b : List ℝ, a.length = b.length →
      vadd (vscale 0 a) (vscale (-1) b) = vneg b := by
  induction a with
  | nil =>
    intro b h
    cases b with
    | nil => rfl
    | cons y ys => simp at h
  | cons x xs ih =>
    intro b h
    cases b with
    | nil => simp at h
    | cons y ys =>
      simp only [vadd, vscale, vneg, List.map_cons, List.zipWith_cons_cons,
        List.cons.injEq] at ih ⊢
      refine ⟨by ring, ?_⟩
      have := ih ys (by simpa using h)
      simpa [vadd, vscale, vneg] using this

/-- A one-group optimizer steps exactly as the one group does. -/
theorem stepAll_singleton (g : Group) :
    stepAll [g] = match stepSingle g with
      | .error err => .error err
      | .ok g2 => .ok [g2] := by
  unfold stepAll stepSingle
  cases hs : g.step? with
  | none =>
    rw [stepGo]
    simp only [hs]
    cases hp : proposeGroup (resetGroup g) with
    | error err => rfl
    | ok g2 => simp [stepGo, resetAll]
  | some n =>
    rw [stepGo]
    simp only [hs]
    cases ha : stepInitialized n g with
    | error err => rfl
    | ok g2 => simp [stepGo]

/-! ### Claim C2 -/

/-- Claim C2 (confirmed): on a `step` call of an initialized group whose
acceptance sums multiply to zero (`a2 * b2 = 0`), the call raises the
degenerate-gradient error (Python's `ZeroDivisionError` at the `relnorm`
division) instead of producing a NaN or Inf that would flow into `dt` or
the velocities. -/
theorem c2_degenerate_raises (g : Group) (n : Nat) (a2 b2 ab : ℝ)
    (hstep : g.step? = some n)
    (hsums : gradSums g.params = .ok (a2, b2, ab))
    (hzero : a2 * b2 = 0) :
    stepAll [g] = .error .degenerateGradient := by
  have h1 : stepSingle g = .error .degenerateGradient := by
    unfold stepSingle
    rw [hstep]
    unfold stepInitialized acceptGroup
    rw [hsums]
    simp [hzero]
  rw [stepAll_singleton, h1]

/-- Witness for C2: an initialized group whose committed and current
gradients are both the zero vector trips the degenerate branch. -/
theorem c2_degenerate_raises_witness :
    gW2.step? = some 0 ∧ gradSums gW2.params = .ok (0, 0, 0) ∧
    (0:ℝ) * 0 = 0 ∧ stepAll [gW2] = .error .degenerateGradient := by
  have hs : gradSums gW2.params = .ok (0, 0, 0) := by
    norm_num [gW2, gradSums, dot]
  exact ⟨rfl, hs, by norm_num,
    c2_degenerate_raises gW2 0 0 0 0 rfl hs (by norm_num)⟩

/-! ### Claim C3 -/

/-- Claim C3 (confirmed): when the acceptance test of a `step` call accepts
(`relnorm < high_bound`), `t` grows by `dt`, the step counter grows by one
and the group is marked accepted; moreover `dt` becomes `1.1 * dt` exactly
when `relnorm < low_bound`, and stays unchanged when
`low_bound ≤ relnorm < high_bound`. -/
theorem c3_accept_grows_t_and_dt (g : Group) (n : Nat) (a2 b2 ab : ℝ)
    (g2 : Group)
    (hstep : g.step? = some n)
    (hdt : 0 < g.dt)
    (hsums : gradSums g.params = .ok (a2, b2, ab))
    (hnz : a2 * b2 ≠ 0)
    (hacc : (a2 + b2 - 2 * ab) / Real.sqrt (a2 * b2) < g.high_bound)
    (hok : stepAll [g] = .ok [g2]) :
    g2.t = g.t + g.dt ∧ g2.step? = some (n + 1) ∧ g2.accepted = true ∧
    (g2.dt = g.dt * 1.1 ↔
      (a2 + b2 - 2 * ab) / Real.sqrt (a2 * b2) < g.low_bound) ∧
    (¬ (a2 + b2 - 2 * ab) / Real.sqrt (a2 * b2) < g.low_bound →
      g2.dt = g.dt) := by
  rw [stepAll_singleton] at hok
  have hss : stepSingle g = .ok g2 := by
    cases hs : stepSingle g with
    | error err => rw [hs] at hok; exact absurd hok (by simp)
    | ok g3 =>
        rw [hs] at hok
        simp only [Except.ok.injEq, List.cons.injEq, and_true] at hok
        rw [hok]
  unfold stepSingle at hss
  simp only [hstep] at hss
  unfold stepInitialized at hss
  cases ha : acceptGroup n g with
  | error err => rw [ha] at hss; exact absurd hss (by simp)
  | ok gm =>
    rw [ha] at hss
    unfold acceptGroup at ha
    rw [hsums] at ha
    simp only [if_neg hnz, if_pos hacc] at ha
    cases hc : commitList g.params with
    | error err => rw [hc] at ha; exact absurd ha (by simp)
    | ok ps =>
      rw [hc] at ha
      simp only [Except.ok.injEq] at ha
      obtain ⟨hg2tau, hg2dt, hg2low, hg2high, hg2step, hg2t, hg2acc, -⟩ :=
        proposeGroup_ok_proj gm g2 hss
      subst ha
      refine ⟨by rw [hg2t], by rw [hg2step], by rw [hg2acc], ?_, ?_⟩
      · constructor
        · intro hEq
          by_contra hlow
          rw [hg2dt, if_neg hlow] at hEq
          have : g.dt * 1 = g.dt * 1.1 := by linarith
          have h11 : (1:ℝ) = 1.1 := mul_left_cancel₀ (ne_of_gt hdt) this
          norm_num at h11
        · intro hlow
          rw [hg2dt, if_pos hlow]
      · intro hlow
        rw [hg2dt, if_neg hlow]

/-- Witness for C3: `gW3` accepts with `relnorm = 0 < low_bound`; `t` grows
by `dt = 1`, the step counter becomes `1`, and `dt` grows to `1.1`. -/
theorem c3_accept_grows_t_and_dt_witness :
    gradSums gW3.params = .ok (4, 4, 4) ∧
    stepAll [gW3] = .ok [gW3res] ∧
    (gW3res.t = gW3.t + gW3.dt ∧ gW3res.step? = some (0 + 1) ∧
     gW3res.accepted = true ∧
     (gW3res.dt = gW3.dt * 1.1 ↔
       ((4:ℝ) + 4 - 2 * 4) / Real.sqrt (4 * 4) < gW3.low_bound) ∧
     (¬ ((4:ℝ) + 4 - 2 * 4) / Real.sqrt (4 * 4) < gW3.low_bound →
       gW3res.dt = gW3.dt)) := by
  have hs : gradSums gW3.params = .ok (4, 4, 4) := by
    norm_num [gW3, gradSums, dot]
  have hok : stepAll [gW3] = .ok [gW3res] := by
    rw [stepAll_singleton]
    norm_num [stepSingle, stepInitialized, acceptGroup, gradSums, dot, gW3,
      gW3res, commitList, commitEntry, proposeGroup, proposeList, proposeEntry,
      vadd, vscale, vneg]
  exact ⟨hs, hok,
    c3_accept_grows_t_and_dt gW3 0 4 4 4 gW3res rfl (by norm_num [gW3]) hs
      (by norm_num) (by norm_num [gW3]) hok⟩

/-! ### Claim C4 -/

/-- Claim C4 (confirmed): when the acceptance test of a `step` call rejects
(`relnorm ≥ high_bound`), `dt` shrinks to `dt / 10`, the group is marked
not accepted, and every parameter's committed state (`grad`, `param`,
`velocity` keys) is unchanged from before the call. -/
theorem c4_reject_frame (g : Group) (n : Nat) (a2 b2 ab : ℝ) (g2 : Group)
    (hstep : g.step? = some n)
    (hsums : gradSums g.params = .ok (a2, b2, ab))
    (hnz : a2 * b2 ≠ 0)
    (hrej : ¬ (a2 + b2 - 2 * ab) / Real.sqrt (a2 * b2) < g.high_bound)
    (hok : stepAll [g] = .ok [g2]) :
    g2.dt = g.dt / 10 ∧ g2.accepted = false ∧
    g2.params.map committedOf = g.params.map committedOf := by
  rw [stepAll_singleton] at hok
  have hss : stepSingle g = .ok g2 := by
    cases hs : stepSingle g with
    | error err => rw [hs] at hok; exact absurd hok (by simp)
    | ok g3 =>
        rw [hs] at hok
        simp only [Except.ok.injEq, List.cons.injEq, and_true] at hok
        rw [hok]
  unfold stepSingle at hss
  simp only [hstep] at hss
  unfold stepInitialized at hss
  cases ha : acceptGroup n g with
  | error err => rw [ha] at hss; exact absurd hss (by simp)
  | ok gm =>
    rw [ha] at hss
    unfold acceptGroup at ha
    rw [hsums] at ha
    simp only [if_neg hnz, if_neg hrej, Except.ok.injEq] at ha
    obtain ⟨-, hg2dt, -, -, -, -, hg2acc, hg2comm⟩ :=
      proposeGroup_ok_proj gm g2 hss
    subst ha
    exact ⟨hg2dt, hg2acc, hg2comm⟩

/-- Witness for C4: `gW4` rejects (`relnorm = 4/3 ≥ 0.1`); `dt` shrinks to
`1/10`, `accepted` becomes `false`, and the committed state is untouched. -/
theorem c4_reject_frame_witness :
    gradSums gW4.params = .ok (1, 9, 3) ∧
    stepAll [gW4] = .ok [gW4res] ∧
    (gW4res.dt = gW4.dt / 10 ∧ gW4res.accepted = false ∧
     gW4res.params.map committedOf = gW4.params.map committedOf) := by
  have h9 : Real.sqrt (9:ℝ) = 3 := by
    rw [show (9:ℝ) = 3 ^ 2 by norm_num]
    exact Real.sqrt_sq (by norm_num)
  have hs : gradSums gW4.params = .ok (1, 9, 3) := by
    norm_num [gW4, gradSums, dot]
  have hrej : ¬ ((1:ℝ) + 9 - 2 * 3) / Real.sqrt (1 * 9) < gW4.high_bound := by
    rw [show (1:ℝ) * 9 = 9 by norm_num, h9]
    norm_num [gW4]
  have hok : stepAll [gW4] = .ok [gW4res] := by
    rw [stepAll_singleton]
    norm_num [stepSingle, stepInitialized, acceptGroup, gradSums, dot, gW4,
      gW4res, commitList, commitEntry, proposeGroup, proposeList, proposeEntry,
      vadd, vscale, vneg, h9]
  exact ⟨hs, hok,
    c4_reject_frame gW4 5 1 9 3 gW4res rfl hs (by norm_num) hrej hok⟩

/-! ### Claim C1 -/

/-- Claim C1 (corrected) — counterexample: with `tau = 1`, `dt = 1` and
initial position `0`, the first call does NOT propose `v = -2.0` and does
NOT move the parameter to `initial_position - 2.0 = -2`; the velocity
update is `v = x·v₀ − (1−x)·g` with `x = exp(-1) > 0`, so both values are
`2·exp(−1) − 2 ≠ −2`. -/
theorem c1_counterexample :
    (stepAll [c1Group 0]).map (fun gs => gs.map fun g =>
        g.params.map fun e => (e.data, e.st.map fun s => s.new_velocity)) ≠
      .ok [[([-2], some (some [-2]))]] := by
  intro h
  rw [stepAll_singleton] at h
  norm_num [stepSingle, c1Group, resetGroup, resetEntry, zerosLike,
    proposeGroup, proposeList, proposeEntry, vadd, vscale, vneg,
    Except.map, Real.exp_ne_zero] at h
  have hE := Real.exp_pos (-1)
  linarith

/-- Claim C1 (corrected) — amended scenario: single scalar parameter,
`tau = 1`, `dt = 1`, `low_bound = 0.01`, `high_bound = 0.1`.  The first
call with gradient `2.0` initializes `committed_gradient = 2.0` and
`committed_velocity = 0`, proposes `v = 2·exp(−1) − 2` (not `−2.0`) and
sets the parameter to `initial_position + 2·exp(−1) − 2`; the second call,
supplying gradient `2.0` again, computes `relnorm = 0`, accepts, grows `dt`
to `1.1`, and promotes the previously proposed `2·exp(−1) − 2` to
`committed_velocity`. -/
theorem c1_amended (p0 : ℝ) :
    stepAll [c1Group p0] = .ok [c1After1 p0] ∧
    ((c1After1 p0).params.map fun e =>
        (e.data, committedOf e, e.st.map fun s => s.new_velocity)) =
      [([p0 + (2 * Real.exp (-1) - 2)], some ([2], [p0], [0]),
        some (some [2 * Real.exp (-1) - 2]))] ∧
    (c1After1 p0).dt = 1 ∧
    gradSums (c1After1 p0).params = .ok (4, 4, 4) ∧
    ((4:ℝ) + 4 - 2 * 4) / Real.sqrt (4 * 4) = 0 ∧
    (stepAll [c1After1 p0]).map (fun gs => gs.map fun g =>
        (g.dt, g.t, g.step?, g.accepted,
         g.params.map fun e => e.st.map fun s => (s.grad, s.velocity))) =
      .ok [(1.1, 1, some 1, true, [some ([2], [2 * Real.exp (-1) - 2])])] := by
  refine ⟨?_, by norm_num [c1After1, committedOf], rfl,
    by norm_num [c1After1, gradSums, dot], by norm_num, ?_⟩
  · rw [stepAll_singleton]
    norm_num [stepSingle, c1Group, c1After1, resetGroup, resetEntry, zerosLike,
      proposeGroup, proposeList, proposeEntry, vadd, vscale, vneg]
    ring
  · rw [stepAll_singleton]
    norm_num [stepSingle, stepInitialized, acceptGroup, gradSums, dot,
      c1After1, commitList, commitEntry, proposeGroup, proposeList,
      proposeEntry, vadd, vscale, vneg, Except.map]

/-! ### Claim C5 -/

/-- Claim C5 (corrected) — counterexample: constructing the optimizer with
the invalid step size `dt = -1` succeeds (the source performs no
hyperparameter validation at construction), and a `step` call on the result
also succeeds, with `dt = -1` still in place — so the configuration is not
"rejected before any advance is possible". -/
theorem c5_counterexample :
    initOptimizer [[{ data := [0], grad := some [1], st := none }]]
        1 (-1) (1/100) (1/10) = [gBad5] ∧
    (stepAll [gBad5]).map (fun gs => gs.map fun g =>
        (g.dt, g.step?, g.accepted)) = .ok [(-1, some 0, true)] := by
  constructor
  · rfl
  · rw [stepAll_singleton]
    norm_num [stepSingle, gBad5, resetGroup, resetEntry, zerosLike,
      proposeGroup, proposeList, proposeEntry, vadd, vscale, vneg, Except.map]

/-- Claim C5 (corrected) — amended: no configuration validation happens at
construction time; the constructor stores `tau`, `dt`, `low_bound` and
`high_bound` verbatim in every group (even for `dt ≤ 0` or invalid bounds)
and never fails; misbehaviour from a bad configuration can only surface at
call time. -/
theorem c5_amended (pgs : List (List ParamEntry)) (tau dt low high : ℝ) :
    (initOptimizer pgs tau dt low high).length = pgs.length ∧
    ∀ g ∈ initOptimizer pgs tau dt low high,
      g.tau = tau ∧ g.dt = dt ∧ g.low_bound = low ∧ g.high_bound = high ∧
      g.step? = none := by
  constructor
  · simp [initOptimizer]
  · intro g hg
    simp only [initOptimizer, List.mem_map] at hg
    obtain ⟨ps, -, rfl⟩ := hg
    exact ⟨rfl, rfl, rfl, rfl, rfl⟩

/-- Witness for the amended C5, at the concrete invalid configuration
`dt = -1`. -/
theorem c5_amended_witness :
    (initOptimizer [[{ data := [0], grad := some [1], st := none }]]
        1 (-1) (1/100) (1/10)).length = 1 ∧
    (gBad5.tau = 1 ∧ gBad5.dt = -1 ∧ gBad5.low_bound = 1/100 ∧
     gBad5.high_bound = 1/10 ∧ gBad5.step? = none) :=
  ⟨(c5_amended [[{ data := [0], grad := some [1], st := none }]]
      1 (-1) (1/100) (1/10)).1,
   (c5_amended [[{ data := [0], grad := some [1], st := none }]]
      1 (-1) (1/100) (1/10)).2 gBad5 (by simp [initOptimizer, gBad5])⟩

/-! ### Claim C6 -/

/-- Claim C6 (corrected) — counterexample: `step` RETURNS the loss computed
by the evaluation callback.  With a callback computing loss `7`, the value
returned by the call is exactly `some 7`, contradicting the claim that the
returned value is never the loss. -/
theorem c6_counterexample :
    (stepClosure (some 7) [gW6]).map Prod.fst = .ok (some 7) := by
  norm_num [stepClosure, stepAll, stepGo, resetAll, gW6, stepSingle,
    resetGroup, resetEntry, zerosLike, proposeGroup, proposeList,
    proposeEntry, vadd, vscale, vneg, Except.map]

/-- Claim C6 (corrected) — amended: whenever the `step` call does not raise,
its returned value is exactly the loss computed by the callback (and `None`
when no callback is supplied): `loss = closure(); ...; return loss`. -/
theorem c6_amended (loss : Option ℝ) (gs : List Group) :
    (stepClosure loss gs).map Prod.fst = (stepAll gs).map fun _ => loss := by
  unfold stepClosure
  cases stepAll gs <;> simp [Except.map]

/-! ### Claim C7 -/

/-- Claim C7 (corrected) — counterexample: with TWO never-initialized
groups, the first fresh group triggers the global `reset`, which also
initializes the second group; when the loop reaches the second group it
therefore finds a `step` key and DOES run an acceptance test on it, which
accepts (`relnorm = 0`, committed and current gradients coincide right
after reset) and then raises a `KeyError` reading the never-written
`new_velocity` — the call fails instead of skipping the acceptance test and
leaving `step_count = 0` as the claim asserts for every never-initialized
group.  A single fresh group, by contrast, ends with `step_count = 0`,
`accepted = true` and unchanged `dt`. -/
theorem c7_counterexample :
    stepAll [g7A, g7B] = .error .missingState ∧
    (stepAll [g7B]).map (fun gs => gs.map fun g =>
        (g.step?, g.accepted, g.dt)) = .ok [(some 0, true, 1)] := by
  constructor
  · norm_num [stepAll, stepGo, resetAll, g7A, g7B, resetGroup, resetEntry,
      zerosLike, stepInitialized, acceptGroup, gradSums, dot, commitList,
      commitEntry, proposeGroup, proposeList, proposeEntry, vadd, vscale,
      vneg]
  · norm_num [stepAll, stepGo, resetAll, g7B, resetGroup, resetEntry,
      zerosLike, proposeGroup, proposeList, proposeEntry, vadd, vscale,
      vneg, Except.map]

/-- Claim C7 (corrected) — amended: the first-call semantics hold for the
first never-initialized group a `step` call encounters (in particular for
any single-group optimizer): no acceptance test runs for it — the call goes
reset-then-propose — `dt` is unchanged, and the group ends with
`accepted = true`, `step_count = 0`, `t = 0`.  (A fresh group positioned
after another fresh group in the same call is initialized by the triggered
global reset and then does undergo an acceptance test.) -/
theorem c7_amended (g : Group) (h : g.step? = none) :
    stepAll [g] = (match proposeGroup (resetGroup g) with
      | .error err => Except.error err
      | .ok g2 => .ok [g2]) ∧
    ∀ g2, stepAll [g] = .ok [g2] →
      g2.accepted = true ∧ g2.step? = some 0 ∧ g2.dt = g.dt ∧ g2.t = 0 := by
  have hsg : stepSingle g = proposeGroup (resetGroup g) := by
    unfold stepSingle
    simp only [h]
  have h1 : stepAll [g] = (match proposeGroup (resetGroup g) with
      | .error err => Except.error err
      | .ok g2 => .ok [g2]) := by
    rw [stepAll_singleton, hsg]
  refine ⟨h1, ?_⟩
  intro g2 hok
  rw [h1] at hok
  cases hp : proposeGroup (resetGroup g) with
  | error err => rw [hp] at hok; exact absurd hok (by simp)
  | ok g3 =>
    rw [hp] at hok
    simp only [Except.ok.injEq, List.cons.injEq, and_true] at hok
    rw [hok] at hp
    obtain ⟨-, hdt, -, -, hstep, ht, hacc, -⟩ :=
      proposeGroup_ok_proj (resetGroup g) g2 hp
    exact ⟨hacc, hstep, hdt, ht⟩

/-- Witness for the amended C7, on a concrete fresh single group. -/
theorem c7_amended_witness :
    gW7.step? = none ∧
    ((stepAll [gW7] = (match proposeGroup (resetGroup gW7) with
        | .error err => Except.error err
        | .ok g2 => .ok [g2])) ∧
     ∀ g2, stepAll [gW7] = .ok [g2] →
       g2.accepted = true ∧ g2.step? = some 0 ∧ g2.dt = gW7.dt ∧ g2.t = 0) :=
  ⟨rfl, c7_amended gW7 rfl⟩

/-! ### Claim C9 -/

/-- Claim C9 (confirmed): `reset` takes no group argument — it
reinitializes the control state (`step = 0`, `t = 0`, `accepted = true`)
and the per-parameter committed state (gradient copied, position copied,
velocity zeroed; gradient-less parameters skipped) of every group at once —
and consequently the lazy initialization triggered by one uninitialized
group during `step` resets ALL groups: the loop continues over
`resetAll rest`, clobbering already-initialized groups. -/
theorem c9_reset_is_global :
    (∀ g : Group, (resetGroup g).step? = some 0 ∧ (resetGroup g).t = 0 ∧
       (resetGroup g).accepted = true ∧
       (resetGroup g).params = g.params.map resetEntry) ∧
    (∀ gs : List Group, resetAll gs = gs.map resetGroup) ∧
    (∀ e : ParamEntry, ∀ gr : List ℝ, e.grad = some gr →
       (resetEntry e).st =
         some { grad := gr, param := e.data, velocity := zerosLike e.data,
                new_velocity := Option.bind e.st fun s => s.new_velocity }) ∧
    (∀ g0 : Group, ∀ rest : List Group, g0.step? = none →
       stepAll (g0 :: rest) = (match proposeGroup (resetGroup g0) with
         | .error err => Except.error err
         | .ok g2 => stepGo [g2] (resetAll rest))) := by
  refine ⟨fun g => ⟨rfl, rfl, rfl, rfl⟩, fun gs => rfl, ?_, ?_⟩
  · intro e gr h
    simp [resetEntry, h]
  · intro g0 rest h
    conv_lhs => unfold stepAll stepGo
    simp only [h]
    cases hp : proposeGroup (resetGroup g0) with
    | error err => rfl
    | ok g2 => simp [resetAll]

/-- Witness for C9: instantiating the global-reset description on concrete
groups — the already-initialized `gW9` is reset together with everyone else
when the fresh `g7A` triggers lazy initialization. -/
theorem c9_reset_is_global_witness :
    ((resetGroup gW9).step? = some 0 ∧ (resetGroup gW9).t = 0 ∧
     (resetGroup gW9).accepted = true ∧
     (resetGroup gW9).params = gW9.params.map resetEntry) ∧
    resetAll [gW9] = [gW9].map resetGroup ∧
    (resetEntry eW9).st =
      some { grad := [5], param := eW9.data, velocity := zerosLike eW9.data,
             new_velocity := Option.bind eW9.st fun s => s.new_velocity } ∧
    stepAll (g7A :: [gW9]) = (match proposeGroup (resetGroup g7A) with
      | .error err => Except.error err
      | .ok g2 => stepGo [g2] (resetAll [gW9])) :=
  ⟨c9_reset_is_global.1 gW9, c9_reset_is_global.2.1 [gW9],
   c9_reset_is_global.2.2.1 eW9 [5] rfl,
   c9_reset_is_global.2.2.2 g7A [gW9] rfl⟩

/-! ### Claim C10 -/

/-- Claim C10 (confirmed): for `tau < 0`, a propose step at elapsed time
`t = 0` with `dt > 0` evaluates the weight `x = (t/(t+dt))^(−tau)` to
exactly `0` (no singularity, no NaN/Inf, no raised error), so the proposed
velocity is exactly `−committed_gradient` and the parameter moves to
`committed_position + dt·(−committed_gradient)`. -/
theorem c10_power_law_first_step (tau dt t : ℝ) (e : ParamEntry)
    (st : ParamState) (gr : List ℝ)
    (htau : tau < 0) (ht : t = 0) (hdt : 0 < dt)
    (hgrad : e.grad = some gr) (hst : e.st = some st)
    (hlen : st.velocity.length = st.grad.length) :
    Real.rpow (t / (t + dt)) (-tau) = 0 ∧
    proposeEntry tau dt t e =
      .ok { e with
            data := vadd st.param (vscale dt (vneg st.grad)),
            st := some { st with new_velocity := some (vneg st.grad) } } := by
  subst ht
  have hx : Real.rpow (0 / (0 + dt)) (-tau) = 0 := by
    rw [zero_div]
    exact Real.zero_rpow (by linarith)
  refine ⟨hx, ?_⟩
  unfold proposeEntry
  simp only [hgrad, hst]
  rw [if_neg (by linarith : ¬ (0:ℝ) < tau), if_pos htau,
    if_neg (by linarith : ¬ (0:ℝ) + dt = 0)]
  rw [hx]
  rw [show -(1 - (0:ℝ)) = -1 by norm_num]
  rw [vadd_vscale_zero_neg_one st.velocity st.grad hlen]

/-- Witness for C10: concrete power-law step with `tau = -1`, `dt = 1`,
`t = 0`. -/
theorem c10_power_law_first_step_witness :
    Real.rpow ((0:ℝ) / (0 + 1)) (-(-1)) = 0 ∧
    proposeEntry (-1) 1 0 eW10 =
      .ok { eW10 with
            data := vadd stW10.param (vscale 1 (vneg stW10.grad)),
            st := some { stW10 with
                         new_velocity := some (vneg stW10.grad) } } :=
  c10_power_law_first_step (-1) 1 0 eW10 stW10 [3] (by norm_num) rfl
    (by norm_num) rfl rfl rfl

/-! ### Claim C8 -/

/-- The acceptance test can only rescale `dt` by `1.1` or `1/10`, so a
positive `dt` stays positive. -/
theorem acceptGroup_ok_dt_pos (n : Nat) (g g2 : Group)
    (h : acceptGroup n g = .ok g2) (hdt : 0 < g.dt) : 0 < g2.dt := by
  unfold acceptGroup at h
  cases hs : gradSums g.params with
  | error err => rw [hs] at h; exact absurd h (by simp)
  | ok trip =>
    obtain ⟨a2, b2, ab⟩ := trip
    rw [hs] at h
    simp only at h
    split at h
    · exact absurd h (by simp)
    · split at h
      · split at h
        · exact absurd h (by simp)
        · simp only [Except.ok.injEq] at h
          subst h
          simp only
          split
          · exact mul_pos hdt (by norm_num)
          · exact hdt
      · simp only [Except.ok.injEq] at h
        subst h
        exact div_pos hdt (by norm_num)

/-- One initialized per-group step cannot make `dt` non-positive. -/
theorem stepInitialized_ok_dt_pos (n : Nat) (g g2 : Group)
    (h : stepInitialized n g = .ok g2) (hdt : 0 < g.dt) : 0 < g2.dt := by
  unfold stepInitialized at h
  cases ha : acceptGroup n g with
  | error err => rw [ha] at h; exact absurd h (by simp)
  | ok gm =>
    rw [ha] at h
    rw [(proposeGroup_ok_proj gm g2 h).2.1]
    exact acceptGroup_ok_dt_pos n g gm ha hdt

/-- The group loop of one `step` call preserves positivity of every `dt`
(stated with an explicit length fuel because the loop continues over the
globally reset remainder). -/
theorem stepGo_ok_dt_pos_aux :
    ∀ (k : Nat) (todo done gs2 : List Group), todo.length = k →
      (∀ g ∈ done, 0 < g.dt) → (∀ g ∈ todo, 0 < g.dt) →
      stepGo done todo = .ok gs2 → ∀ g ∈ gs2, 0 < g.dt := by
  intro k
  induction k with
  | zero =>
    intro todo done gs2 hk hd _ h
    obtain rfl : todo = [] := List.length_eq_zero.mp hk
    unfold stepGo at h
    simp only [Except.ok.injEq] at h
    subst h
    exact hd
  | succ k ih =>
    intro todo done gs2 hk hd ht h
    cases todo with
    | nil => exact absurd hk (by simp)
    | cons g0 todo =>
      have hk2 : todo.length = k := by simpa using hk
      unfold stepGo at h
      cases hs : g0.step? with
      | none =>
        simp only [hs] at h
        cases hp : proposeGroup (resetGroup g0) with
        | error err => simp only [hp] at h; exact absurd h (by simp)
        | ok g2 =>
          simp only [hp] at h
          refine ih (resetAll todo) (resetAll done ++ [g2]) gs2
            (by simpa [resetAll] using hk2) ?_ ?_ h
          · intro x hx
            rcases List.mem_append.mp hx with hx | hx
            · obtain ⟨y, hy, rfl⟩ := List.mem_map.mp hx
              exact hd y hy
            · simp only [List.mem_singleton] at hx
              subst hx
              rw [(proposeGroup_ok_proj (resetGroup g0) x hp).2.1]
              exact ht g0 (List.mem_cons_self _ _)
          · intro x hx
            obtain ⟨y, hy, rfl⟩ := List.mem_map.mp hx
            exact ht y (List.mem_cons_of_mem _ hy)
      | some n =>
        simp only [hs] at h
        cases hq : stepInitialized n g0 with
        | error err => simp only [hq] at h; exact absurd h (by simp)
        | ok g2 =>
          simp only [hq] at h
          refine ih todo (done ++ [g2]) gs2 hk2 ?_
            (fun x hx => ht x (List.mem_cons_of_mem _ hx)) h
          intro x hx
          rcases List.mem_append.mp hx with hx | hx
          · exact hd x hx
          · simp only [List.mem_singleton] at hx
            subst hx
            exact stepInitialized_ok_dt_pos n g0 x hq
              (ht g0 (List.mem_cons_self _ _))

/-- Any error-free sequence of `reset` and `step` calls preserves
positivity of every group's `dt`. -/
theorem runOps_dt_pos :
    ∀ (ops : List Op) (gs gs2 : List Group),
      (∀ g ∈ gs, 0 < g.dt) → runOps ops gs = .ok gs2 →
      ∀ g ∈ gs2, 0 < g.dt := by
  intro ops
  induction ops with
  | nil =>
    intro gs gs2 hg h
    unfold runOps at h
    simp only [Except.ok.injEq] at h
    subst h
    exact hg
  | cons op ops ih =>
    intro gs gs2 hg h
    unfold runOps at h
    cases op with
    | reset =>
      simp only [runOp] at h
      refine ih (resetAll gs) gs2 ?_ h
      intro x hx
      obtain ⟨y, hy, rfl⟩ := List.mem_map.mp hx
      exact hg y hy
    | advance =>
      simp only [runOp] at h
      cases ha : stepAll gs with
      | error err => rw [ha] at h; exact absurd h (by simp)
      | ok gs3 =>
        rw [ha] at h
        refine ih gs3 gs2 ?_ h
        unfold stepAll at ha
        exact stepGo_ok_dt_pos_aux gs.length gs [] gs3 rfl (by simp) hg ha

/-- Claim C8 (confirmed): for an optimizer constructed with `dt > 0`, after
any finite error-free sequence of `reset` and `step` calls every group's
`dt` is still strictly positive — the only mutations of `dt` are
multiplication by `1.1` and division by `10`. -/
theorem c8_dt_stays_positive (pgs : List (List ParamEntry))
    (tau dt low high : ℝ) (ops : List Op) (gs2 : List Group)
    (hdt : 0 < dt)
    (hrun : runOps ops (initOptimizer pgs tau dt low high) = .ok gs2) :
    ∀ g ∈ gs2, 0 < g.dt := by
  refine runOps_dt_pos ops _ gs2 ?_ hrun
  intro g hg
  obtain ⟨ps, -, rfl⟩ := List.mem_map.mp hg
  exact hdt

/-- Witness for C8: one `step` call on a freshly constructed one-group
optimizer with `dt = 1` leaves `dt` positive. -/
theorem c8_dt_stays_positive_witness :
    (0:ℝ) < 1 ∧
    runOps [Op.advance]
      (initOptimizer [[{ data := [0], grad := some [1], st := none }]]
        0 1 (1/100) (1/10)) = .ok [g8res] ∧
    ∀ g ∈ [g8res], 0 < g.dt := by
  have hrun : runOps [Op.advance]
      (initOptimizer [[{ data := [0], grad := some [1], st := none }]]
        0 1 (1/100) (1/10)) = .ok [g8res] := by
    norm_num [runOps, runOp, initOptimizer, stepAll, stepGo, resetAll,
      resetGroup, resetEntry, zerosLike, proposeGroup, proposeList,
      proposeEntry, vadd, vscale, vneg, g8res]
  exact ⟨by norm_num, hrun,
    c8_dt_stays_positive [[{ data := [0], grad := some [1], st := none }]]
      0 1 (1/100) (1/10) [Op.advance] [g8res] (by norm_num) hrun⟩

end

end GradcmpOptim
